import Mathlib

/-!
# sensu-namespace-copy: a verification development over `main.go`

The Go program reads one resource from the Sensu API, rewrites (or strips) its
`metadata.namespace`, and prints it or POSTs it to another namespace.

The embedding is shallow.  The process-wide `config` variable is passed
explicitly as a `Config`.  Everything the program obtains from outside
(HTTP exchanges, the certificate store, the JSON and YAML codecs of the Go
libraries) is read from an explicit `World`.  A run yields the list of
observable events it performed together with the way it ended: a normal
return, a process exit through `log.Fatal`, or a Go runtime panic.
-/

namespace NamespaceCopy

/-! ## Data model -/

/-- Go `error` values, identified with the text of `Error()`. -/
structure Error where
  msg : String
deriving DecidableEq, Repr

/-- The part of `sensu.PluginConfig` that `main.go` fills in. -/
structure PluginConfig where
  Name : String
  Short : String
  Keyspace : String
deriving DecidableEq, Repr

/-- The `Config` struct of `main.go` (lines 22-37). -/
structure Config where
  PluginConfig : PluginConfig
  Namespace : String
  Resource : String
  ResourceType : String
  NewNamespace : String
  SensuApiUrl : String
  SensuAccessToken : String
  SensuTrustedCaFile : String
  ResourceString : String
  Verbose : Bool
  Dryrun : Bool
  Output : Bool
  Strip : Bool
  Yaml : Bool
deriving DecidableEq, Repr

/-- Modelled from the spec: the check states `sensu.CheckStateOK` and
`sensu.CheckStateCritical` belong to the plugin SDK, which is not part of the
sources; the specification (section 6) names the two outcomes OK and
Critical. -/
inductive CheckState where
  | OK
  | Critical
deriving DecidableEq, Repr

/-! ## Argument validation -/

/-- The function `checkArgs` of `main.go` (lines 191-223).  The unused event
argument is dropped; the result is the Go pair `(int, error)` with `none` for
a nil error. -/
def checkArgs (cfg : Config) : CheckState × Option Error :=
  if cfg.Dryrun then
    (CheckState.OK, none)
  else if cfg.SensuApiUrl.length = 0 then
    (CheckState.Critical,
      some ⟨"--sensu-api-url flag or $SENSU_API_URL environment variable must be set"⟩)
  else if cfg.Namespace.length = 0 then
    (CheckState.Critical,
      some ⟨"--namespace flag or $SENSU_NAMESPACE environment variable must be set"⟩)
  else if cfg.ResourceType.length = 0 then
    (CheckState.Critical, some ⟨"--resource-type flag must be set"⟩)
  else if cfg.Resource.length = 0 then
    (CheckState.Critical, some ⟨"--resource flag must be set"⟩)
  else if cfg.SensuAccessToken.length = 0 then
    (CheckState.Critical,
      some ⟨"--sensu-access-token flag or $SENSU_ACCESS_TOKEN environment variable must be set"⟩)
  else if cfg.NewNamespace.length = 0 ∧ cfg.Strip = false then
    (CheckState.Critical, some ⟨"must either provide either --new-namespace or --strip option"⟩)
  else if cfg.NewNamespace.length > 0 ∧ cfg.Strip = true then
    (CheckState.Critical, some ⟨"cannot use both --new-namespace and --strip options together"⟩)
  else if cfg.Output = false ∧ cfg.Strip = true then
    (CheckState.Critical, some ⟨"--strip requires --output option"⟩)
  else
    (CheckState.OK, none)

/-! ### The validator as the specification words it -/

/-- The seven validation rules of specification section 4.1, in its order. -/
inductive Rule where
  | apiUrl
  | sourceNamespace
  | resourceType
  | resourceName
  | accessToken
  | exactlyOneTarget
  | stripNeedsOutput
deriving DecidableEq, Repr

/-- The precedence order of the rules. -/
def Rule.order : List Rule :=
  [Rule.apiUrl, Rule.sourceNamespace, Rule.resourceType, Rule.resourceName,
   Rule.accessToken, Rule.exactlyOneTarget, Rule.stripNeedsOutput]

/-- When a rule is violated by a configuration. -/
def Rule.violated (cfg : Config) : Rule → Bool
  | Rule.apiUrl => cfg.SensuApiUrl.length == 0
  | Rule.sourceNamespace => cfg.Namespace.length == 0
  | Rule.resourceType => cfg.ResourceType.length == 0
  | Rule.resourceName => cfg.Resource.length == 0
  | Rule.accessToken => cfg.SensuAccessToken.length == 0
  | Rule.exactlyOneTarget => (decide (cfg.NewNamespace.length > 0)) == cfg.Strip
  | Rule.stripNeedsOutput => cfg.Strip && !cfg.Output

/-- The message reported for a violated rule.  Rule 6 has one message for
"neither" and one for "both". -/
def Rule.message (cfg : Config) : Rule → String
  | Rule.apiUrl => "--sensu-api-url flag or $SENSU_API_URL environment variable must be set"
  | Rule.sourceNamespace => "--namespace flag or $SENSU_NAMESPACE environment variable must be set"
  | Rule.resourceType => "--resource-type flag must be set"
  | Rule.resourceName => "--resource flag must be set"
  | Rule.accessToken =>
      "--sensu-access-token flag or $SENSU_ACCESS_TOKEN environment variable must be set"
  | Rule.exactlyOneTarget =>
      if cfg.Strip then "cannot use both --new-namespace and --strip options together"
      else "must either provide either --new-namespace or --strip option"
  | Rule.stripNeedsOutput => "--strip requires --output option"

/-- The validator of specification section 4.1: success, or the failure of
the first violated rule in precedence order. -/
def specValidate (cfg : Config) : CheckState × Option Error :=
  match Rule.order.find? (Rule.violated cfg) with
  | none => (CheckState.OK, none)
  | some r => (CheckState.Critical, some ⟨r.message cfg⟩)

/-- The five required fields, in the order `checkArgs` inspects them. -/
inductive RequiredField where
  | SensuApiUrl
  | Namespace
  | ResourceType
  | Resource
  | SensuAccessToken
deriving DecidableEq, Repr

/-- The configured value of a required field. -/
def RequiredField.value (cfg : Config) : RequiredField → String
  | RequiredField.SensuApiUrl => cfg.SensuApiUrl
  | RequiredField.Namespace => cfg.Namespace
  | RequiredField.ResourceType => cfg.ResourceType
  | RequiredField.Resource => cfg.Resource
  | RequiredField.SensuAccessToken => cfg.SensuAccessToken

/-- The error text of `checkArgs` that names a required field. -/
def RequiredField.message : RequiredField → String
  | RequiredField.SensuApiUrl =>
      "--sensu-api-url flag or $SENSU_API_URL environment variable must be set"
  | RequiredField.Namespace =>
      "--namespace flag or $SENSU_NAMESPACE environment variable must be set"
  | RequiredField.ResourceType => "--resource-type flag must be set"
  | RequiredField.Resource => "--resource flag must be set"
  | RequiredField.SensuAccessToken =>
      "--sensu-access-token flag or $SENSU_ACCESS_TOKEN environment variable must be set"

/-- The required fields that `checkArgs` inspects before a given one. -/
def RequiredField.before : RequiredField → List RequiredField
  | RequiredField.SensuApiUrl => []
  | RequiredField.Namespace => [RequiredField.SensuApiUrl]
  | RequiredField.ResourceType => [RequiredField.SensuApiUrl, RequiredField.Namespace]
  | RequiredField.Resource =>
      [RequiredField.SensuApiUrl, RequiredField.Namespace, RequiredField.ResourceType]
  | RequiredField.SensuAccessToken =>
      [RequiredField.SensuApiUrl, RequiredField.Namespace, RequiredField.ResourceType,
       RequiredField.Resource]

/-- A configuration with every string empty and every flag off. -/
def emptyConfig : Config :=
  { PluginConfig :=
      { Name := "sensu-namespace-copy"
        Short := "Copy resources across namespaces"
        Keyspace := "sensu.io/plugins/sensu-namespace-copy/config" }
    Namespace := ""
    Resource := ""
    ResourceType := ""
    NewNamespace := ""
    SensuApiUrl := ""
    SensuAccessToken := ""
    SensuTrustedCaFile := ""
    ResourceString := ""
    Verbose := false
    Dryrun := false
    Output := false
    Strip := false
    Yaml := false }

/-- A complete configuration that retargets check `x` from `ns1` to `ns2`. -/
def retargetConfig : Config :=
  { emptyConfig with
    Namespace := "ns1"
    Resource := "x"
    ResourceType := "checks"
    NewNamespace := "ns2"
    SensuApiUrl := "https://sensu.example:8080"
    SensuAccessToken := "tok" }

/-- A complete configuration that strips the namespace of check `x` and prints it. -/
def stripConfig : Config :=
  { retargetConfig with NewNamespace := "", Strip := true, Output := true }

/-! ## Resource documents -/

/-- The dynamic values that `json.Unmarshal` stores in an `interface{}`:
nil, `bool`, `float64`, `string`, `[]interface{}` and
`map[string]interface{}`.  A number carries the bit pattern of its
`float64`; the program never inspects it.  A map is kept as its list of
entries. -/
inductive JSON where
  | null
  | bool (b : Bool)
  | number (bits : Nat)
  | string (s : String)
  | array (xs : List JSON)
  | object (kvs : List (String × JSON))

/-- A non-nil Go `map[string]interface{}`. -/
abbrev Obj := List (String × JSON)

/-- Reading `m[k]` with the comma-ok form: the value stored under `k`, if any. -/
def Obj.get? (m : Obj) (k : String) : Option JSON :=
  match m with
  | [] => none
  | (k', v) :: rest => if k' = k then some v else Obj.get? rest k

/-- The Go expression `m[k]` on a possibly nil map: the stored value, or the
zero value (a nil interface) when the map is nil or has no such key. -/
def mapIndex (m : Option Obj) (k : String) : JSON :=
  match m with
  | none => JSON.null
  | some kvs => (Obj.get? kvs k).getD JSON.null

/-- The Go statement `delete(m, k)`. -/
def Obj.delete (m : Obj) (k : String) : Obj :=
  match m with
  | [] => []
  | (k', v) :: rest => if k' = k then Obj.delete rest k else (k', v) :: Obj.delete rest k

/-- The Go statement `m[k] = v`: the entry of `k` is overwritten where it
stands, and a new key is added at the end. -/
def Obj.set (m : Obj) (k : String) (v : JSON) : Obj :=
  match m with
  | [] => [(k, v)]
  | (k', v') :: rest => if k' = k then (k, v) :: rest else (k', v') :: Obj.set rest k v

/-- Static names of the dynamic types an `interface{}` can hold here. -/
inductive GoType where
  | nil
  | bool
  | float64
  | string
  | slice
  | map
deriving DecidableEq, Repr

/-- The dynamic type of a value. -/
def JSON.dynType : JSON → GoType
  | JSON.null => GoType.nil
  | JSON.bool _ => GoType.bool
  | JSON.number _ => GoType.float64
  | JSON.string _ => GoType.string
  | JSON.array _ => GoType.slice
  | JSON.object _ => GoType.map

/-- Whether a value is a mapping. -/
def JSON.isObject : JSON → Bool
  | JSON.object _ => true
  | _ => false

/-! ## The outside world and runs -/

/-- An outgoing HTTP request, identified by what the program supplies: the
method, the URL string and the body it gives to `http.NewRequest`, and the
headers it sets with `Header.Set`.  The library parses the URL string; the
parsed `req.URL`, and with it the path that goes on the wire, is the
library's reading of the field `url` and is not kept here. -/
structure Request where
  Method : String
  url : String
  Header : List (String × String)
  Body : Option String
deriving DecidableEq, Repr

/-- An HTTP response: its status code and what `ioutil.ReadAll` makes of its body. -/
structure Response where
  StatusCode : Int
  Body : Except Error String

/-- The two results of `httpClient.Do`.  Go allows a non-nil response together
with a non-nil error (a failed redirect check). -/
structure DoResult where
  resp : Option Response
  err : Option Error

/-- Everything the program reads from outside its own source: library
functions of the Go distribution and the state of the network and the file
system.  An `Option Error` is the error result of a call, `none` for nil. -/
structure World where
  /-- The table `http.StatusText`. -/
  StatusText : Int → String
  /-- The error result of `http.NewRequest` for a method and a URL string. -/
  NewRequest : String → String → Option Error
  /-- The text `req.URL` formats to under the verb `%s`, for a request built
  from a URL string: `url.Parse` followed by `URL.String`. -/
  URLString : String → String
  /-- The error result of `x509.SystemCertPool`. -/
  SystemCertPool : Option Error
  /-- The error result of `ioutil.ReadFile` on a path. -/
  ReadFile : String → Option Error
  /-- The exchange `httpClient.Do`. -/
  Do : Request → DoResult
  /-- Decoding by `json.Unmarshal` into a `map[string]interface{}` variable
  that starts nil: an error, or the resulting map (still nil for the body
  `null`). -/
  Unmarshal : String → Except Error (Option Obj)
  /-- Encoding by `json.Marshal`. -/
  Marshal : Obj → Except Error String
  /-- Encoding by `json.MarshalIndent` with prefix `""` and indent `"\t"`. -/
  MarshalIndent : Obj → Except Error String
  /-- Encoding by `yaml.Marshal`. -/
  YamlMarshal : Obj → Except Error String

/-- The functions of `main.go` whose invocation a run records. -/
inductive Fn where
  | GetResource
  | OutputResource
  | PostResource
  | initHttpClient
  | LoadCACerts
deriving DecidableEq, Repr

/-- The observable steps of a run. -/
inductive Event where
  /-- Entry into a function of `main.go`. -/
  | call (f : Fn)
  /-- Text written to standard output. -/
  | stdout (s : String)
  /-- A message handed to the `log` package, without the time stamp the
  logger writes in front of it. -/
  | log (s : String)
  /-- A request sent with `httpClient.Do`. -/
  | http (req : Request)
deriving DecidableEq, Repr

/-- Go runtime panics that the program can raise. -/
inductive Panic where
  /-- A failed single-value type assertion `x.(map[string]interface{})`,
  with the dynamic type found. -/
  | typeAssertion (found : GoType)
  /-- A field read through a nil pointer. -/
  | nilDereference
deriving DecidableEq, Repr

/-- How a computation ends: it returns a value, the process exits with
status 1 through `log.Fatal` or `log.Fatalf`, or the runtime panics. -/
inductive Res (α : Type) where
  | ret (a : α)
  | fatal
  | panic (p : Panic)
deriving Repr

/-- A run: the events performed, oldest first, and the way it ended. -/
structure Exec (α : Type) where
  trace : List Event
  res : Res α

/-- A run that performs nothing and returns. -/
def Exec.pure {α : Type} (a : α) : Exec α := ⟨[], Res.ret a⟩

/-- Sequencing: the second run happens only if the first returns. -/
def Exec.bind {α β : Type} (x : Exec α) (f : α → Exec β) : Exec β :=
  match x.res with
  | Res.ret a => ⟨x.trace ++ (f a).trace, (f a).res⟩
  | Res.fatal => ⟨x.trace, Res.fatal⟩
  | Res.panic p => ⟨x.trace, Res.panic p⟩

instance : Monad Exec where
  pure := Exec.pure
  bind := Exec.bind

/-- Performing one event. -/
def emit (e : Event) : Exec Unit := ⟨[e], Res.ret ()⟩

/-- The calls `log.Fatal` and `log.Fatalf`: log the message, then exit. -/
def logFatal {α : Type} (s : String) : Exec α := ⟨[Event.log s], Res.fatal⟩

/-- A runtime panic. -/
def throwPanic {α : Type} (p : Panic) : Exec α := ⟨[], Res.panic p⟩

/-- The call `fmt.Println`: operands separated by spaces, then a newline. -/
def Println (args : List String) : Exec Unit :=
  emit (Event.stdout (" ".intercalate args ++ "\n"))

/-- The verb `%v` on an `int`. -/
def fmtInt (n : Int) : String := toString n

/-- The verb `%v` on a `bool`, as `fmt.Println` prints it. -/
def fmtBool (b : Bool) : String := if b then "true" else "false"

/-! ## The program -/

/-- The function `LoadCACerts` of `main.go` (lines 225-244).  The certificate
pool itself plays no part in any outcome, so only the error result is kept. -/
def LoadCACerts (w : World) (path : String) : Exec (Option Error) := do
  emit (Event.call Fn.LoadCACerts)
  match w.SystemCertPool with
  | some err => logFatal ("ERROR: failed to load system cert pool: " ++ err.msg)
  | none =>
    if path ≠ "" then
      match w.ReadFile path with
      | some err => logFatal ("ERROR: failed to read CA file (" ++ path ++ "): " ++ err.msg)
      | none => pure none
    else
      pure none

/-- The function `initHttpClient` of `main.go` (lines 246-261). -/
def initHttpClient (cfg : Config) (w : World) : Exec Unit := do
  emit (Event.call Fn.initHttpClient)
  let err ← LoadCACerts w cfg.SensuTrustedCaFile
  match err with
  | some e => logFatal ("ERROR: " ++ e.msg ++ "\n")
  | none => pure ()

/-- The URL string that `GetResource` formats (lines 266-271). -/
def getURL (cfg : Config) : String :=
  cfg.SensuApiUrl ++ "/api/core/v2/namespaces/" ++ cfg.Namespace ++ "/" ++ cfg.ResourceType
    ++ "/" ++ cfg.Resource

/-- The URL string that `PostResource` formats (lines 334-338).  The
destination namespace goes in as it is, without escaping. -/
def postURL (cfg : Config) : String :=
  cfg.SensuApiUrl ++ "/api/core/v2/namespaces/" ++ cfg.NewNamespace ++ "/" ++ cfg.ResourceType

/-- The characters that end a path segment in the generic URL syntax. -/
def endsSegment (c : Char) : Bool := c == '/' || c == '?' || c == '#'

/-- The characters that end the path of a URL in the generic URL syntax. -/
def endsPath (c : Char) : Bool := c == '?' || c == '#'

/-- The namespace segment of the POST URL string: the path segment that
starts right after `SensuApiUrl` and `/api/core/v2/namespaces/`, read up to
the next `/`, `?` or `#` as the generic URL syntax splits a path.  There is
none when the API URL itself holds a `?` or a `#`, since the path has then
ended before that place. -/
def namespaceSegment (cfg : Config) : Option String :=
  if cfg.SensuApiUrl.data.any endsPath then none
  else
    some (String.mk
      (((postURL cfg).data.drop (cfg.SensuApiUrl ++ "/api/core/v2/namespaces/").length).takeWhile
        fun c => !endsSegment c))

/-- The two headers both requests carry. -/
def requestHeader (cfg : Config) : List (String × String) :=
  [("Authorization", "Bearer " ++ cfg.SensuAccessToken), ("Content-Type", "application/json")]

/-- The function `GetResource` of `main.go` (lines 263-308).  It returns the
Go pair of the decoded map (`none` for nil) and the error. -/
def GetResource (cfg : Config) (w : World) : Exec (Option Obj × Option Error) := do
  emit (Event.call Fn.GetResource)
  match w.NewRequest "GET" (getURL cfg) with
  | some err => logFatal ("ERROR: " ++ err.msg ++ "\n")
  | none => do
    initHttpClient cfg w
    let req : Request :=
      { Method := "GET", url := getURL cfg, Header := requestHeader cfg, Body := none }
    emit (Event.http req)
    match (w.Do req).err with
    | some err => logFatal ("ERROR: " ++ err.msg ++ "\n")
    | none =>
      match (w.Do req).resp with
      | none => throwPanic Panic.nilDereference
      | some resp =>
        if resp.StatusCode = 404 then
          logFatal ("ERROR: " ++ fmtInt resp.StatusCode ++ " " ++ w.StatusText resp.StatusCode
            ++ " (" ++ w.URLString req.url ++ ")\n")
        else if resp.StatusCode ≥ 300 then
          logFatal ("ERROR: " ++ fmtInt resp.StatusCode ++ " " ++ w.StatusText resp.StatusCode)
        else
          match resp.Body with
          | Except.error err => logFatal ("ERROR: " ++ err.msg ++ "\n")
          | Except.ok b =>
            match w.Unmarshal b with
            | Except.error err => pure (none, some err)
            | Except.ok result => pure (result, none)

/-- The function `OutputResource` of `main.go` (lines 309-324). -/
def OutputResource (cfg : Config) (w : World) (resource : Obj) : Exec (Option Error) := do
  emit (Event.call Fn.OutputResource)
  if cfg.Yaml then
    match w.YamlMarshal resource with
    | Except.error err => logFatal ("error: " ++ err.msg)
    | Except.ok body => do
      Println ["---\n" ++ body ++ "...\n"]
      pure none
  else
    match w.MarshalIndent resource with
    | Except.error err => logFatal ("error: " ++ err.msg)
    | Except.ok body => do
      Println [body]
      pure none

/-- The message `PostResource` logs for status 409 (line 356). -/
def conflictMessage (cfg : Config) (w : World) (code : Int) : String :=
  "ERROR: " ++ fmtInt code ++ " " ++ w.StatusText code
    ++ " Resource already exists in namespace \"" ++ cfg.NewNamespace ++ "\"\n"

/-- The message `PostResource` logs for any other status of 300 or more (line 359). -/
def genericStatusMessage (w : World) (code : Int) : String :=
  "ERROR: " ++ fmtInt code ++ " " ++ w.StatusText code

/-- The confirmation `PostResource` logs for status 201 (line 362). -/
def copiedMessage (cfg : Config) : String :=
  "copied resource to namespace \"" ++ cfg.NewNamespace ++ "\""

/-- The request `PostResource` sends, for an encoded body. -/
def postRequest (cfg : Config) (postBody : String) : Request :=
  { Method := "POST", url := postURL cfg, Header := requestHeader cfg, Body := some postBody }

/-- The function `PostResource` of `main.go` (lines 325-367).  The status
line is printed before the error of `Do` is inspected, as in the source. -/
def PostResource (cfg : Config) (w : World) (resource : Obj) : Exec (Option Error) := do
  emit (Event.call Fn.PostResource)
  match w.Marshal resource with
  | Except.error err => logFatal ("error: " ++ err.msg)
  | Except.ok postBody =>
    match w.NewRequest "POST" (postURL cfg) with
    | some err => logFatal ("ERROR: " ++ err.msg ++ "\n")
    | none => do
      initHttpClient cfg w
      let req := postRequest cfg postBody
      emit (Event.http req)
      match (w.Do req).resp with
      | none => throwPanic Panic.nilDereference
      | some resp => do
        Println ["POST Request Status", fmtInt resp.StatusCode]
        match (w.Do req).err with
        | some err => logFatal ("ERROR: " ++ err.msg ++ "\n")
        | none =>
          if resp.StatusCode = 404 then
            logFatal ("ERROR: " ++ fmtInt resp.StatusCode ++ " " ++ w.StatusText resp.StatusCode
              ++ " (" ++ w.URLString req.url ++ ")\n")
          else if resp.StatusCode = 409 then
            logFatal (conflictMessage cfg w resp.StatusCode)
          else if resp.StatusCode ≥ 300 then
            logFatal (genericStatusMessage w resp.StatusCode)
          else if resp.StatusCode = 201 then do
            emit (Event.log (copiedMessage cfg))
            pure none
          else
            pure none

/-- The transformation step of `copyResource` (lines 171-176) on the
`metadata` map. -/
def transformMetadata (cfg : Config) (metadata : Obj) : Obj :=
  let stripped := if cfg.Strip then Obj.delete metadata "namespace" else metadata
  if cfg.NewNamespace.length > 0 then
    Obj.set stripped "namespace" (JSON.string cfg.NewNamespace)
  else
    stripped

/-- The map `resource` as seen once its `metadata` map has been changed in
place: Go maps are references, so the entry of `metadata` now shows the
changed map.  The map `resource` is not nil where this is used. -/
def storeMetadata (resource : Option Obj) (metadata : Obj) : Obj :=
  Obj.set (resource.getD []) "metadata" (JSON.object metadata)

/-- The lines the dry-run branch of `copyResource` prints (lines 156-166). -/
def dryrunReport (cfg : Config) : Exec Unit := do
  Println ["Dryrun selected, printing out configuration for review and exiting"]
  Println ["  SensuAccessToken:", cfg.SensuAccessToken]
  Println ["  SensuApiUrl:", cfg.SensuApiUrl]
  Println ["  Namespace:", cfg.Namespace]
  Println ["  NewNamespace:", cfg.NewNamespace]
  Println ["  Resource:", cfg.Resource]
  Println ["  ResourceType:", cfg.ResourceType]
  Println ["  Verbose:", fmtBool cfg.Verbose]
  Println ["  Strip:", fmtBool cfg.Strip]
  Println ["  Output:", fmtBool cfg.Output]
  Println ["  Dryrun:", fmtBool cfg.Dryrun]

/-- The transformation step of `copyResource` (lines 170-176): the
single-value type assertion on `resource["metadata"]`, which panics when the
value is not a map, then the two conditional changes of that map.  The result
is the map `resource` as the emitter receives it. -/
def transformStep (cfg : Config) (resource : Option Obj) : Exec Obj :=
  match mapIndex resource "metadata" with
  | JSON.object metadata => pure (storeMetadata resource (transformMetadata cfg metadata))
  | v => throwPanic (Panic.typeAssertion v.dynType)

/-- The emitter call of `copyResource` (lines 178-182). -/
def emitResource (cfg : Config) (w : World) (resource : Obj) : Exec (Option Error) :=
  if cfg.Output then OutputResource cfg w resource else PostResource cfg w resource

/-- The function `copyResource` of `main.go` (lines 154-188).  The error
returned by `GetResource` is bound and never inspected before it is
overwritten, as in the source. -/
def copyResource (cfg : Config) (w : World) : Exec (CheckState × Option Error) := do
  if cfg.Dryrun then
    dryrunReport cfg
    pure (CheckState.OK, none)
  else
    let (resource, _) ← GetResource cfg w
    let resource ← transformStep cfg resource
    let err ← emitResource cfg w resource
    match err with
    | some e => pure (CheckState.Critical, some e)
    | none => pure (CheckState.OK, none)

/-! ## Sample documents and worlds -/

/-- The document of the specification's examples:
`{"metadata":{"namespace":"ns1","name":"x"},"spec":{}}`. -/
def sampleDoc : Obj :=
  [("metadata", JSON.object [("namespace", JSON.string "ns1"), ("name", JSON.string "x")]),
   ("spec", JSON.object [])]

/-- The sample document retargeted to `ns2`. -/
def sampleDocRetargeted : Obj :=
  [("metadata", JSON.object [("namespace", JSON.string "ns2"), ("name", JSON.string "x")]),
   ("spec", JSON.object [])]

/-- The sample document without its namespace. -/
def sampleDocStripped : Obj :=
  [("metadata", JSON.object [("name", JSON.string "x")]), ("spec", JSON.object [])]

/-- A document without a `metadata` key: `{"spec":{}}`. -/
def docWithoutMetadata : Obj := [("spec", JSON.object [])]

/-- A plain response with a status code and a readable body. -/
def plainResponse (code : Int) (body : String) : DoResult :=
  { resp := some { StatusCode := code, Body := Except.ok body }, err := none }

/-- A world in which the certificate store loads, every request can be built
and its URL prints as the string it was built from, the GET is answered by
`get` with a body that decodes to `decoded`, the POST is answered by `post`,
and every encoder succeeds. -/
def sampleWorld (get : DoResult) (decoded : Except Error (Option Obj)) (post : DoResult) :
    World :=
  { StatusText := fun c =>
      if c = 200 then "OK" else if c = 201 then "Created"
      else if c = 404 then "Not Found" else if c = 409 then "Conflict" else ""
    NewRequest := fun _ _ => none
    URLString := fun url => url
    SystemCertPool := none
    ReadFile := fun _ => none
    Do := fun req => if req.Method = "GET" then get else post
    Unmarshal := fun _ => decoded
    Marshal := fun _ => Except.ok "<json>"
    MarshalIndent := fun _ => Except.ok "<indented json>"
    YamlMarshal := fun _ => Except.ok "<yaml>\n" }

/-- A world whose GET returns the sample document and whose POST is answered
with the given status code. -/
def postWorld (code : Int) : World :=
  sampleWorld (plainResponse 200 "<body>") (Except.ok (some sampleDoc)) (plainResponse code "")

/-- A world whose GET succeeds with a body that is not a JSON object, so that
`json.Unmarshal` fails. -/
def parseFailureWorld : World :=
  sampleWorld (plainResponse 200 "[1]")
    (Except.error ⟨"json: cannot unmarshal array into Go value of type map[string]interface \x7b\x7d"⟩)
    (plainResponse 201 "")

/-- A world whose GET returns a document without a `metadata` key. -/
def noMetadataWorld : World :=
  sampleWorld (plainResponse 200 "<body>") (Except.ok (some docWithoutMetadata))
    (plainResponse 201 "")

/-- A complete configuration whose destination namespace holds a slash. -/
def slashConfig : Config := { retargetConfig with NewNamespace := "a/b" }

/-- A complete configuration whose destination namespace is a lone slash. -/
def loneSlashConfig : Config := { retargetConfig with NewNamespace := "/" }

/-- A dry-run configuration in which every required field is empty. -/
def dryrunConfig : Config := { emptyConfig with Dryrun := true }

/-! ## Predicates on runs -/

/-- The events that `GetResource` can perform: entries into itself and the
two certificate helpers, log messages, and requests of method GET. -/
def Event.ofGet : Event → Bool
  | Event.call f => f == Fn.GetResource || f == Fn.initHttpClient || f == Fn.LoadCACerts
  | Event.stdout _ => false
  | Event.log _ => true
  | Event.http req => req.Method == "GET"

/-- Every event of a run satisfies a test. -/
def Exec.All {α : Type} (P : Event → Bool) (x : Exec α) : Prop :=
  ∀ e ∈ x.trace, P e = true

/-- The certificate store loads, so that `initHttpClient` returns. -/
def CertsLoad (cfg : Config) (w : World) : Prop :=
  w.SystemCertPool = none ∧
    (cfg.SensuTrustedCaFile ≠ "" → w.ReadFile cfg.SensuTrustedCaFile = none)

/-- The POST of `resource` is sent, with `body` as the encoding of `resource`. -/
def PostSent (cfg : Config) (w : World) (resource : Obj) (body : String) : Prop :=
  w.Marshal resource = Except.ok body ∧ w.NewRequest "POST" (postURL cfg) = none ∧
    CertsLoad cfg w

/-- The POST of `resource` is sent and answered, without a transport error,
by a response with status `code`. -/
def PostAnswered (cfg : Config) (w : World) (resource : Obj) (code : Int) : Prop :=
  ∃ body : String, PostSent cfg w resource body ∧
    ∃ b : Except Error String, w.Do (postRequest cfg body) = ⟨some ⟨code, b⟩, none⟩

/-- The events of `PostResource` up to and including the printed status line. -/
def postPrelude (cfg : Config) (body : String) (code : Int) : List Event :=
  [Event.call Fn.PostResource, Event.call Fn.initHttpClient, Event.call Fn.LoadCACerts,
   Event.http (postRequest cfg body),
   Event.stdout ("POST Request Status " ++ fmtInt code ++ "\n")]

/-! ## Lemmas on maps -/

theorem Obj.get?_set_self (m : Obj) (k : String) (v : JSON) :
    Obj.get? (Obj.set m k v) k = some v := by
  induction m with
  | nil => simp [Obj.set, Obj.get?]
  | cons p rest ih =>
    obtain ⟨k', v'⟩ := p
    by_cases h : k' = k
    · simp [Obj.set, Obj.get?, h]
    · simp [Obj.set, Obj.get?, h, ih]

theorem Obj.get?_set_ne (m : Obj) (k k' : String) (v : JSON) (h : k' ≠ k) :
    Obj.get? (Obj.set m k v) k' = Obj.get? m k' := by
  induction m with
  | nil => simp [Obj.set, Obj.get?, Ne.symm h]
  | cons p rest ih =>
    obtain ⟨k₀, v₀⟩ := p
    by_cases h0 : k₀ = k
    · subst h0
      simp [Obj.set, Obj.get?, Ne.symm h]
    · by_cases h1 : k₀ = k'
      · subst h1
        simp [Obj.set, Obj.get?, h]
      · simp [Obj.set, Obj.get?, h0, h1, ih]

theorem Obj.get?_delete_self (m : Obj) (k : String) :
    Obj.get? (Obj.delete m k) k = none := by
  induction m with
  | nil => simp [Obj.delete, Obj.get?]
  | cons p rest ih =>
    obtain ⟨k', v'⟩ := p
    by_cases h : k' = k
    · simp [Obj.delete, h, ih]
    · simp [Obj.delete, Obj.get?, h, ih]

theorem Obj.get?_delete_ne (m : Obj) (k k' : String) (h : k' ≠ k) :
    Obj.get? (Obj.delete m k) k' = Obj.get? m k' := by
  induction m with
  | nil => simp [Obj.delete, Obj.get?]
  | cons p rest ih =>
    obtain ⟨k₀, v₀⟩ := p
    by_cases h0 : k₀ = k
    · subst h0
      simp [Obj.delete, Obj.get?, Ne.symm h, ih]
    · by_cases h1 : k₀ = k'
      · subst h1
        simp [Obj.delete, Obj.get?, h]
      · simp [Obj.delete, Obj.get?, h0, h1, ih]

/-- Under exactly one of "destination set" and "strip", the changed
`metadata` has the namespace removed or set, and its other keys untouched. -/
theorem transformMetadata_spec (cfg : Config) (metadata : Obj)
    (hx : Xor' (cfg.NewNamespace.length > 0) (cfg.Strip = true)) :
    (if cfg.Strip then Obj.get? (transformMetadata cfg metadata) "namespace" = none
      else Obj.get? (transformMetadata cfg metadata) "namespace"
        = some (JSON.string cfg.NewNamespace)) ∧
    ∀ k : String, k ≠ "namespace" →
      Obj.get? (transformMetadata cfg metadata) k = Obj.get? metadata k := by
  cases hs : cfg.Strip <;> by_cases hn : cfg.NewNamespace.length > 0 <;>
    simp [Xor', hs, hn] at hx
  · refine ⟨?_, ?_⟩
    · simp [transformMetadata, hs, hn, Obj.get?_set_self]
    · intro k hk
      simp [transformMetadata, hs, hn, Obj.get?_set_ne _ _ _ _ hk]
  · refine ⟨?_, ?_⟩
    · simp [transformMetadata, hs, hn, Obj.get?_delete_self]
    · intro k hk
      simp [transformMetadata, hs, hn, Obj.get?_delete_ne _ _ _ hk]

/-! ## Lemmas on validation -/

theorem checkArgs_eq_specValidate (cfg : Config) (h : cfg.Dryrun = false) :
    checkArgs cfg = specValidate cfg := by
  by_cases h1 : cfg.SensuApiUrl.length = 0
  · have v1 : Rule.violated cfg Rule.apiUrl = true := by simp [Rule.violated, h1]
    simp [checkArgs, specValidate, Rule.order, List.find?, Rule.message, h, h1, v1]
  have v1 : Rule.violated cfg Rule.apiUrl = false := by simp [Rule.violated, h1]
  by_cases h2 : cfg.Namespace.length = 0
  · have v2 : Rule.violated cfg Rule.sourceNamespace = true := by simp [Rule.violated, h2]
    simp [checkArgs, specValidate, Rule.order, List.find?, Rule.message, h, h1, h2, v1, v2]
  have v2 : Rule.violated cfg Rule.sourceNamespace = false := by simp [Rule.violated, h2]
  by_cases h3 : cfg.ResourceType.length = 0
  · have v3 : Rule.violated cfg Rule.resourceType = true := by simp [Rule.violated, h3]
    simp [checkArgs, specValidate, Rule.order, List.find?, Rule.message, h, h1, h2, h3, v1, v2, v3]
  have v3 : Rule.violated cfg Rule.resourceType = false := by simp [Rule.violated, h3]
  by_cases h4 : cfg.Resource.length = 0
  · have v4 : Rule.violated cfg Rule.resourceName = true := by simp [Rule.violated, h4]
    simp [checkArgs, specValidate, Rule.order, List.find?, Rule.message, h, h1, h2, h3, h4,
      v1, v2, v3, v4]
  have v4 : Rule.violated cfg Rule.resourceName = false := by simp [Rule.violated, h4]
  by_cases h5 : cfg.SensuAccessToken.length = 0
  · have v5 : Rule.violated cfg Rule.accessToken = true := by simp [Rule.violated, h5]
    simp [checkArgs, specValidate, Rule.order, List.find?, Rule.message, h, h1, h2, h3, h4, h5,
      v1, v2, v3, v4, v5]
  have v5 : Rule.violated cfg Rule.accessToken = false := by simp [Rule.violated, h5]
  simp only [specValidate, Rule.order, List.find?, v1, v2, v3, v4, v5]
  by_cases h6 : cfg.NewNamespace.length = 0 <;> cases hs : cfg.Strip <;> cases ho : cfg.Output <;>
    simp [checkArgs, Rule.violated, Rule.message, h, h1, h2, h3, h4, h5, h6, hs, ho,
      Nat.pos_iff_ne_zero]

/-- What a successful validation says about the two targets. -/
theorem checkArgs_ok_targets (cfg : Config) (hdry : cfg.Dryrun = false)
    (hok : (checkArgs cfg).1 = CheckState.OK) :
    Xor' (cfg.NewNamespace.length > 0) (cfg.Strip = true) ∧
      (cfg.Strip = true → cfg.Output = true) := by
  revert hok
  by_cases h1 : cfg.SensuApiUrl.length = 0
  · simp [checkArgs, hdry, h1]
  by_cases h2 : cfg.Namespace.length = 0
  · simp [checkArgs, hdry, h1, h2]
  by_cases h3 : cfg.ResourceType.length = 0
  · simp [checkArgs, hdry, h1, h2, h3]
  by_cases h4 : cfg.Resource.length = 0
  · simp [checkArgs, hdry, h1, h2, h3, h4]
  by_cases h5 : cfg.SensuAccessToken.length = 0
  · simp [checkArgs, hdry, h1, h2, h3, h4, h5]
  by_cases h6 : cfg.NewNamespace.length = 0 <;> cases hs : cfg.Strip <;> cases ho : cfg.Output <;>
    simp [checkArgs, hdry, h1, h2, h3, h4, h5, h6, hs, ho, Nat.pos_iff_ne_zero, Xor']

/-! ## Lemmas on runs -/

@[simp]
theorem bind_eq_execBind {α β : Type} (x : Exec α) (f : α → Exec β) :
    x >>= f = Exec.bind x f := rfl

@[simp]
theorem pure_eq_execPure {α : Type} (a : α) : (pure a : Exec α) = Exec.pure a := rfl

theorem Exec.bind_of_ret {α β : Type} (x : Exec α) (f : α → Exec β) (a : α)
    (h : x.res = Res.ret a) : Exec.bind x f = ⟨x.trace ++ (f a).trace, (f a).res⟩ := by
  simp [Exec.bind, h]

theorem Exec.all_bind {α β : Type} (P : Event → Bool) (x : Exec α) (f : α → Exec β)
    (hx : Exec.All P x) (hf : ∀ a, Exec.All P (f a)) : Exec.All P (Exec.bind x f) := by
  unfold Exec.All Exec.bind
  cases hr : x.res with
  | ret a =>
    intro e he
    simp only [List.mem_append] at he
    rcases he with he | he
    · exact hx e he
    · exact hf a e he
  | fatal => exact hx
  | panic p => exact hx

theorem Exec.all_pure {α : Type} (P : Event → Bool) (a : α) : Exec.All P (Exec.pure a) := by
  simp [Exec.All, Exec.pure]

theorem Exec.all_throwPanic {α : Type} (P : Event → Bool) (p : Panic) :
    Exec.All P (throwPanic p : Exec α) := by
  simp [Exec.All, throwPanic]

theorem Exec.all_emit (P : Event → Bool) (e : Event) (h : P e = true) :
    Exec.All P (emit e) := by
  simp [Exec.All, emit, h]

theorem Exec.all_logFatal {α : Type} (P : Event → Bool) (s : String)
    (h : P (Event.log s) = true) : Exec.All P (logFatal s : Exec α) := by
  simp [Exec.All, logFatal, h]

theorem LoadCACerts_ofGet (w : World) (path : String) :
    Exec.All Event.ofGet (LoadCACerts w path) := by
  unfold LoadCACerts
  simp only [bind_eq_execBind, pure_eq_execPure]
  refine Exec.all_bind _ _ _ (Exec.all_emit _ _ rfl) fun _ => ?_
  split
  · exact Exec.all_logFatal _ _ rfl
  · split
    · split
      · exact Exec.all_logFatal _ _ rfl
      · exact Exec.all_pure _ _
    · exact Exec.all_pure _ _

theorem initHttpClient_ofGet (cfg : Config) (w : World) :
    Exec.All Event.ofGet (initHttpClient cfg w) := by
  unfold initHttpClient
  simp only [bind_eq_execBind, pure_eq_execPure]
  refine Exec.all_bind _ _ _ (Exec.all_emit _ _ rfl) fun _ => ?_
  refine Exec.all_bind _ _ _ (LoadCACerts_ofGet _ _) fun err => ?_
  split
  · exact Exec.all_logFatal _ _ rfl
  · exact Exec.all_pure _ _

/-- The run of `GetResource` performs only its own kind of events: it prints
nothing, sends no request other than a GET, and never enters the emitters. -/
theorem GetResource_ofGet (cfg : Config) (w : World) :
    Exec.All Event.ofGet (GetResource cfg w) := by
  unfold GetResource
  simp only [bind_eq_execBind, pure_eq_execPure]
  refine Exec.all_bind _ _ _ (Exec.all_emit _ _ rfl) fun _ => ?_
  split
  · exact Exec.all_logFatal _ _ rfl
  · refine Exec.all_bind _ _ _ (initHttpClient_ofGet _ _) fun _ => ?_
    refine Exec.all_bind _ _ _ (Exec.all_emit _ _ (by simp [Event.ofGet])) fun _ => ?_
    split
    · exact Exec.all_logFatal _ _ rfl
    · split
      · exact Exec.all_throwPanic _ _
      · split
        · exact Exec.all_logFatal _ _ rfl
        · split
          · exact Exec.all_logFatal _ _ rfl
          · split
            · exact Exec.all_logFatal _ _ rfl
            · split
              · exact Exec.all_pure _ _
              · exact Exec.all_pure _ _

theorem copyResource_dryrun (cfg : Config) (w : World) (h : cfg.Dryrun = true) :
    copyResource cfg w = ⟨(dryrunReport cfg).trace, Res.ret (CheckState.OK, none)⟩ := by
  simp [copyResource, h, dryrunReport, Println, emit, Exec.bind, Exec.pure]

theorem copyResource_of_get (cfg : Config) (w : World) (resource : Option Obj)
    (err : Option Error) (hdry : cfg.Dryrun = false)
    (hg : (GetResource cfg w).res = Res.ret (resource, err)) :
    copyResource cfg w =
      ⟨(GetResource cfg w).trace ++
        ((transformStep cfg resource).bind fun doc =>
          (emitResource cfg w doc).bind fun e =>
            match e with
            | some e => Exec.pure (CheckState.Critical, some e)
            | none => Exec.pure (CheckState.OK, none)).trace,
       ((transformStep cfg resource).bind fun doc =>
          (emitResource cfg w doc).bind fun e =>
            match e with
            | some e => Exec.pure (CheckState.Critical, some e)
            | none => Exec.pure (CheckState.OK, none)).res⟩ := by
  simp only [copyResource, hdry, bind_eq_execBind, pure_eq_execPure]
  rw [Exec.bind_of_ret _ _ _ hg]
  rfl

/-- When the transformation step panics, so does `copyResource`, right after
`GetResource`. -/
theorem copyResource_of_panic (cfg : Config) (w : World) (resource : Option Obj)
    (err : Option Error) (p : Panic) (hdry : cfg.Dryrun = false)
    (hg : (GetResource cfg w).res = Res.ret (resource, err))
    (ht : transformStep cfg resource = ⟨[], Res.panic p⟩) :
    copyResource cfg w = ⟨(GetResource cfg w).trace, Res.panic p⟩ := by
  rw [copyResource_of_get cfg w resource err hdry hg, ht]
  simp [Exec.bind]

/-- When the transformation step returns a document, `copyResource` hands it
to the emitter and turns the emitter's error into the check state. -/
theorem copyResource_of_transformed (cfg : Config) (w : World) (resource : Option Obj)
    (err : Option Error) (doc : Obj) (hdry : cfg.Dryrun = false)
    (hg : (GetResource cfg w).res = Res.ret (resource, err))
    (ht : transformStep cfg resource = ⟨[], Res.ret doc⟩) :
    (copyResource cfg w).trace = (GetResource cfg w).trace ++ (emitResource cfg w doc).trace ∧
    (copyResource cfg w).res =
      (match (emitResource cfg w doc).res with
       | Res.ret (some e) => Res.ret (CheckState.Critical, some e)
       | Res.ret none => Res.ret (CheckState.OK, none)
       | Res.fatal => Res.fatal
       | Res.panic p => Res.panic p) := by
  rw [copyResource_of_get cfg w resource err hdry hg, ht]
  cases hr : (emitResource cfg w doc).res with
  | ret e => cases e <;> simp [Exec.bind, hr, Exec.pure]
  | fatal => simp [Exec.bind, hr]
  | panic p => simp [Exec.bind, hr]

theorem transformStep_of_object (cfg : Config) (resource : Option Obj) (metadata : Obj)
    (h : mapIndex resource "metadata" = JSON.object metadata) :
    transformStep cfg resource =
      ⟨[], Res.ret (storeMetadata resource (transformMetadata cfg metadata))⟩ := by
  simp [transformStep, h, Exec.pure]

theorem transformStep_of_not_object (cfg : Config) (resource : Option Obj)
    (h : (mapIndex resource "metadata").isObject = false) :
    transformStep cfg resource =
      ⟨[], Res.panic (Panic.typeAssertion (mapIndex resource "metadata").dynType)⟩ := by
  unfold transformStep
  cases hv : mapIndex resource "metadata" <;> simp_all [JSON.isObject, throwPanic, JSON.dynType]

theorem initHttpClient_of_certsLoad (cfg : Config) (w : World) (h : CertsLoad cfg w) :
    initHttpClient cfg w =
      ⟨[Event.call Fn.initHttpClient, Event.call Fn.LoadCACerts], Res.ret ()⟩ := by
  obtain ⟨h1, h2⟩ := h
  by_cases hp : cfg.SensuTrustedCaFile = ""
  · simp [initHttpClient, LoadCACerts, h1, hp, Exec.bind, emit, Exec.pure]
  · simp [initHttpClient, LoadCACerts, h1, hp, h2 hp, Exec.bind, emit, Exec.pure]

/-- The whole run of `PostResource` once the POST is sent and answered
without a transport error, by status code. -/
theorem PostResource_of_answered (cfg : Config) (w : World) (resource : Obj) (body : String)
    (code : Int) (b : Except Error String) (hs : PostSent cfg w resource body)
    (hd : w.Do (postRequest cfg body) = ⟨some ⟨code, b⟩, none⟩) :
    PostResource cfg w resource =
      if code = 404 then
        ⟨postPrelude cfg body code ++
          [Event.log ("ERROR: " ++ fmtInt code ++ " " ++ w.StatusText code
            ++ " (" ++ w.URLString (postURL cfg) ++ ")\n")], Res.fatal⟩
      else if code = 409 then
        ⟨postPrelude cfg body code ++ [Event.log (conflictMessage cfg w code)], Res.fatal⟩
      else if code ≥ 300 then
        ⟨postPrelude cfg body code ++ [Event.log (genericStatusMessage w code)], Res.fatal⟩
      else if code = 201 then
        ⟨postPrelude cfg body code ++ [Event.log (copiedMessage cfg)], Res.ret none⟩
      else
        ⟨postPrelude cfg body code, Res.ret none⟩ := by
  obtain ⟨hm, hn, hc⟩ := hs
  unfold PostResource
  simp only [bind_eq_execBind, pure_eq_execPure, hm, hn, initHttpClient_of_certsLoad cfg w hc, hd]
  by_cases h404 : code = 404
  · subst h404
    simp [Exec.bind, emit, Println, logFatal, postPrelude, postRequest]
    rfl
  by_cases h409 : code = 409
  · subst h409
    simp [Exec.bind, emit, Println, logFatal, postPrelude]
    rfl
  by_cases h300 : code ≥ 300
  · simp [Exec.bind, emit, Println, logFatal, postPrelude, h404, h409, h300]
    rfl
  by_cases h201 : code = 201
  · subst h201
    simp [Exec.bind, emit, Println, logFatal, postPrelude, Exec.pure]
    rfl
  · simp [Exec.bind, emit, Println, logFatal, postPrelude, h404, h409, h300, h201, Exec.pure]
    rfl

/-- Once the body is encoded, the request built and the client ready,
`PostResource` sends the request, whatever the answer. -/
theorem PostResource_sends (cfg : Config) (w : World) (resource : Obj) (body : String)
    (hs : PostSent cfg w resource body) :
    Event.http (postRequest cfg body) ∈ (PostResource cfg w resource).trace := by
  obtain ⟨hm, hn, hc⟩ := hs
  unfold PostResource
  simp only [bind_eq_execBind, pure_eq_execPure, hm, hn, initHttpClient_of_certsLoad cfg w hc]
  simp only [Exec.bind, emit, List.singleton_append, List.cons_append, List.nil_append]
  simp only [List.mem_cons, reduceCtorEq, false_or]
  exact Or.inl trivial

theorem conflictMessage_ne_generic (cfg : Config) (w : World) (code : Int) :
    conflictMessage cfg w code ≠ genericStatusMessage w code := by
  intro h
  have := congrArg String.length h
  simp only [conflictMessage, genericStatusMessage, String.length_append] at this
  have h1 : "\"\n".length = 2 := by decide
  omega

theorem append_ne_of_head (a b : String) (c d : Char) (x y : String)
    (ha : a.data.head? = some c) (hb : b.data.head? = some d) (hcd : c ≠ d) :
    a ++ x ≠ b ++ y := by
  intro h
  have h2 := congrArg (fun s => s.data.head?) h
  simp only [String.data_append] at h2
  cases ha' : a.data with
  | nil => simp [ha'] at ha
  | cons a0 as =>
    cases hb' : b.data with
    | nil => simp [hb'] at hb
    | cons b0 bs =>
      simp [ha', hb'] at h2 ha hb
      exact hcd (ha ▸ hb ▸ h2)

theorem copiedMessage_ne_error (cfg : Config) (s : String) :
    copiedMessage cfg ≠ "ERROR: " ++ s := by
  unfold copiedMessage
  simp only [String.append_assoc]
  exact append_ne_of_head _ _ 'c' 'E' _ _ rfl rfl (by decide)

/-- A destination namespace free of `/`, `?` and `#`, after an API URL free of
`?` and `#`, is the namespace segment of the POST URL string. -/
theorem namespaceSegment_of_plain (cfg : Config)
    (hbase : cfg.SensuApiUrl.data.any endsPath = false)
    (hns : cfg.NewNamespace.data.any endsSegment = false) :
    namespaceSegment cfg = some cfg.NewNamespace := by
  unfold namespaceSegment
  rw [if_neg (by simp [hbase])]
  congr 1
  have hurl : (postURL cfg).data =
      (cfg.SensuApiUrl ++ "/api/core/v2/namespaces/").data ++
        (cfg.NewNamespace.data ++ ('/' :: cfg.ResourceType.data)) := by
    simp [postURL, String.data_append]
  rw [hurl, String.length, List.drop_left]
  have hall : ∀ c ∈ cfg.NewNamespace.data, (!endsSegment c) = true := by
    intro c hc
    have := List.any_eq_false.mp hns c hc
    simpa using this
  rw [List.takeWhile_append_of_pos hall]
  simp [endsSegment]

/-! ## The claims -/

/-- C1: outside dry-run, `checkArgs` is the validator of the specification:
it returns OK exactly when none of the seven rules is violated, and otherwise
Critical with the message of the first violated rule in the order API URL,
source namespace, resource type, resource name, access token, exactly one of
destination namespace and strip, strip needs output. -/
theorem checkArgs_first_violated_rule (cfg : Config) (h : cfg.Dryrun = false) :
    checkArgs cfg = specValidate cfg ∧
      (checkArgs cfg = (CheckState.OK, none) ↔ ∀ r : Rule, r.violated cfg = false) := by
  have key : checkArgs cfg = specValidate cfg := checkArgs_eq_specValidate cfg h
  refine ⟨key, ?_⟩
  rw [key]
  simp only [specValidate]
  constructor
  · intro hok r
    cases hf : List.find? (Rule.violated cfg) Rule.order with
    | none =>
      rw [List.find?_eq_none] at hf
      have := hf r (by cases r <;> simp [Rule.order])
      simpa using this
    | some r' => rw [hf] at hok; simp at hok
  · intro hall
    have : List.find? (Rule.violated cfg) Rule.order = none := by
      rw [List.find?_eq_none]
      intro x _
      simp [hall x]
    rw [this]

/-- C1 at the complete retargeting configuration, which passes. -/
theorem checkArgs_first_violated_rule_witness :
    retargetConfig.Dryrun = false ∧ checkArgs retargetConfig = specValidate retargetConfig ∧
      (checkArgs retargetConfig = (CheckState.OK, none) ↔
        ∀ r : Rule, r.violated retargetConfig = false) :=
  ⟨rfl, checkArgs_first_violated_rule retargetConfig rfl⟩

/-- C2 as stated fails: with every field empty and dry-run off, the field
`Namespace` is empty, yet `checkArgs` reports the API URL and not the source namespace,
although the claim promises the message of the empty field. -/
theorem checkArgs_names_field_counterexample :
    emptyConfig.Dryrun = false ∧
      (RequiredField.value emptyConfig RequiredField.Namespace).length = 0 ∧
      checkArgs emptyConfig ≠
        (CheckState.Critical, some ⟨RequiredField.message RequiredField.Namespace⟩) ∧
      checkArgs emptyConfig =
        (CheckState.Critical, some ⟨RequiredField.message RequiredField.SensuApiUrl⟩) := by
  decide

/-- C2 amended: outside dry-run, when a required field is empty `checkArgs`
fails with Critical; the message names that field when every required field
inspected before it is non-empty, and in any case names the first empty
required field in the order API URL, namespace, resource type, resource,
access token. -/
theorem checkArgs_names_first_empty_field (cfg : Config) (f : RequiredField)
    (hdry : cfg.Dryrun = false) (hempty : (f.value cfg).length = 0) :
    (checkArgs cfg).1 = CheckState.Critical ∧
      ((∀ g ∈ f.before, (g.value cfg).length ≠ 0) →
        checkArgs cfg = (CheckState.Critical, some ⟨f.message⟩)) ∧
      ∃ g : RequiredField, (g.value cfg).length = 0 ∧
        (∀ g' ∈ g.before, (g'.value cfg).length ≠ 0) ∧
        checkArgs cfg = (CheckState.Critical, some ⟨g.message⟩) := by
  have first : ∀ g : RequiredField, (g.value cfg).length = 0 →
      (∀ g' ∈ g.before, (g'.value cfg).length ≠ 0) →
      checkArgs cfg = (CheckState.Critical, some ⟨g.message⟩) := by
    intro g hg hb
    cases g <;>
      simp only [RequiredField.before, RequiredField.value, List.mem_cons, List.mem_singleton,
        List.not_mem_nil, forall_eq_or_imp, forall_eq, or_false, false_implies, implies_true,
        ne_eq] at hg hb <;>
      simp [checkArgs, RequiredField.message, hdry, hg, hb]
  have ex : ∃ g : RequiredField, (g.value cfg).length = 0 ∧
      (∀ g' ∈ g.before, (g'.value cfg).length ≠ 0) := by
    by_cases h1 : cfg.SensuApiUrl.length = 0
    · exact ⟨RequiredField.SensuApiUrl, h1, by simp [RequiredField.before]⟩
    by_cases h2 : cfg.Namespace.length = 0
    · exact ⟨RequiredField.Namespace, h2, by simp [RequiredField.before, RequiredField.value, h1]⟩
    by_cases h3 : cfg.ResourceType.length = 0
    · exact ⟨RequiredField.ResourceType, h3,
        by simp [RequiredField.before, RequiredField.value, h1, h2]⟩
    by_cases h4 : cfg.Resource.length = 0
    · exact ⟨RequiredField.Resource, h4,
        by simp [RequiredField.before, RequiredField.value, h1, h2, h3]⟩
    by_cases h5 : cfg.SensuAccessToken.length = 0
    · exact ⟨RequiredField.SensuAccessToken, h5,
        by simp [RequiredField.before, RequiredField.value, h1, h2, h3, h4]⟩
    exfalso
    cases f <;> simp [RequiredField.value] at hempty <;> simp_all
  obtain ⟨g, hg, hb⟩ := ex
  refine ⟨?_, first f hempty, g, hg, hb, first g hg hb⟩
  rw [first g hg hb]

/-- C2 amended, at the empty configuration and the field `Namespace`. -/
theorem checkArgs_names_first_empty_field_witness :
    emptyConfig.Dryrun = false ∧
      (RequiredField.value emptyConfig RequiredField.Namespace).length = 0 ∧
      ((checkArgs emptyConfig).1 = CheckState.Critical ∧
      ((∀ g ∈ RequiredField.before RequiredField.Namespace,
          (g.value emptyConfig).length ≠ 0) →
        checkArgs emptyConfig =
          (CheckState.Critical, some ⟨RequiredField.message RequiredField.Namespace⟩)) ∧
      ∃ g : RequiredField, (g.value emptyConfig).length = 0 ∧
        (∀ g' ∈ g.before, (g'.value emptyConfig).length ≠ 0) ∧
        checkArgs emptyConfig = (CheckState.Critical, some ⟨g.message⟩)) :=
  ⟨rfl, rfl, checkArgs_names_first_empty_field emptyConfig RequiredField.Namespace rfl rfl⟩

/-- C3: outside dry-run, when `checkArgs` succeeds exactly one of
"destination namespace non-empty" and "strip" holds and strip implies output;
and `checkArgs` fails whenever both or neither of the two is set, or strip is
set without output. -/
theorem checkArgs_exactly_one_target (cfg : Config) (hdry : cfg.Dryrun = false) :
    ((checkArgs cfg).1 = CheckState.OK →
        Xor' (cfg.NewNamespace.length > 0) (cfg.Strip = true) ∧
          (cfg.Strip = true → cfg.Output = true)) ∧
      (((cfg.NewNamespace.length > 0 ∧ cfg.Strip = true) ∨
          (cfg.NewNamespace.length = 0 ∧ cfg.Strip = false) ∨
          (cfg.Strip = true ∧ cfg.Output = false)) →
        (checkArgs cfg).1 = CheckState.Critical ∧ (checkArgs cfg).2 ≠ none) := by
  by_cases h1 : cfg.SensuApiUrl.length = 0
  · simp [checkArgs, hdry, h1]
  by_cases h2 : cfg.Namespace.length = 0
  · simp [checkArgs, hdry, h1, h2]
  by_cases h3 : cfg.ResourceType.length = 0
  · simp [checkArgs, hdry, h1, h2, h3]
  by_cases h4 : cfg.Resource.length = 0
  · simp [checkArgs, hdry, h1, h2, h3, h4]
  by_cases h5 : cfg.SensuAccessToken.length = 0
  · simp [checkArgs, hdry, h1, h2, h3, h4, h5]
  by_cases h6 : cfg.NewNamespace.length = 0 <;> cases hs : cfg.Strip <;> cases ho : cfg.Output <;>
    simp [checkArgs, hdry, h1, h2, h3, h4, h5, h6, hs, ho, Nat.pos_iff_ne_zero, Xor']

/-- C3 at the strip configuration, which passes validation. -/
theorem checkArgs_exactly_one_target_witness :
    stripConfig.Dryrun = false ∧
    (((checkArgs stripConfig).1 = CheckState.OK →
        Xor' (stripConfig.NewNamespace.length > 0) (stripConfig.Strip = true) ∧
          (stripConfig.Strip = true → stripConfig.Output = true)) ∧
      (((stripConfig.NewNamespace.length > 0 ∧ stripConfig.Strip = true) ∨
          (stripConfig.NewNamespace.length = 0 ∧ stripConfig.Strip = false) ∨
          (stripConfig.Strip = true ∧ stripConfig.Output = false)) →
        (checkArgs stripConfig).1 = CheckState.Critical ∧ (checkArgs stripConfig).2 ≠ none)) :=
  ⟨rfl, checkArgs_exactly_one_target stripConfig rfl⟩

/-- C4: with the dry-run flag set, whatever the other fields and the world
are, `checkArgs` returns OK with no error, and `copyResource` returns OK with
no error after printing the configuration report and nothing else: it enters
none of `GetResource`, `PostResource`, `OutputResource` and sends no HTTP
request. -/
theorem dryrun_skips_validation_and_execution (cfg : Config) (w : World)
    (h : cfg.Dryrun = true) :
    checkArgs cfg = (CheckState.OK, none) ∧
      (copyResource cfg w).res = Res.ret (CheckState.OK, none) ∧
      (copyResource cfg w).trace = (dryrunReport cfg).trace ∧
      Event.call Fn.GetResource ∉ (copyResource cfg w).trace ∧
      Event.call Fn.PostResource ∉ (copyResource cfg w).trace ∧
      Event.call Fn.OutputResource ∉ (copyResource cfg w).trace ∧
      (∀ req : Request, Event.http req ∉ (copyResource cfg w).trace) ∧
      (∀ e ∈ (copyResource cfg w).trace, ∃ s : String, e = Event.stdout s) := by
  rw [copyResource_dryrun cfg w h]
  refine ⟨by simp [checkArgs, h], rfl, rfl, ?_, ?_, ?_, ?_, ?_⟩ <;>
    simp [dryrunReport, Println, emit, Exec.bind]

/-- C4 at a dry-run configuration whose required fields are all empty. -/
theorem dryrun_skips_validation_and_execution_witness :
    dryrunConfig.Dryrun = true ∧
      checkArgs dryrunConfig = (CheckState.OK, none) ∧
      (copyResource dryrunConfig (postWorld 201)).res = Res.ret (CheckState.OK, none) ∧
      (copyResource dryrunConfig (postWorld 201)).trace = (dryrunReport dryrunConfig).trace ∧
      Event.call Fn.GetResource ∉ (copyResource dryrunConfig (postWorld 201)).trace ∧
      Event.call Fn.PostResource ∉ (copyResource dryrunConfig (postWorld 201)).trace ∧
      Event.call Fn.OutputResource ∉ (copyResource dryrunConfig (postWorld 201)).trace ∧
      (∀ req : Request, Event.http req ∉ (copyResource dryrunConfig (postWorld 201)).trace) ∧
      (∀ e ∈ (copyResource dryrunConfig (postWorld 201)).trace,
        ∃ s : String, e = Event.stdout s) :=
  ⟨rfl, dryrun_skips_validation_and_execution dryrunConfig (postWorld 201) rfl⟩

/-- C5: for a configuration that passed validation outside dry-run and a
fetched document whose `metadata` is a mapping, the transformation step
returns a document whose `metadata` has no `namespace` key under strip and
otherwise has `namespace` equal to the destination namespace, with every other
key of `metadata` and every other top-level key unchanged, and `copyResource`
hands exactly this document to the emitter.  The two examples of the
specification hold: the sample document retargeted to `ns2`, and stripped. -/
theorem transformStep_retargets_or_strips :
    (∀ (cfg : Config) (resource metadata : Obj),
      cfg.Dryrun = false → (checkArgs cfg).1 = CheckState.OK →
      mapIndex (some resource) "metadata" = JSON.object metadata →
      ∃ doc md : Obj,
        transformStep cfg (some resource) = ⟨[], Res.ret doc⟩ ∧
        Obj.get? doc "metadata" = some (JSON.object md) ∧
        (if cfg.Strip then Obj.get? md "namespace" = none
          else Obj.get? md "namespace" = some (JSON.string cfg.NewNamespace)) ∧
        (∀ k : String, k ≠ "namespace" → Obj.get? md k = Obj.get? metadata k) ∧
        (∀ k : String, k ≠ "metadata" → Obj.get? doc k = Obj.get? resource k) ∧
        (∀ (w : World) (err : Option Error),
          (GetResource cfg w).res = Res.ret (some resource, err) →
          (copyResource cfg w).trace =
            (GetResource cfg w).trace ++ (emitResource cfg w doc).trace)) ∧
    transformStep retargetConfig (some sampleDoc) = ⟨[], Res.ret sampleDocRetargeted⟩ ∧
    transformStep stripConfig (some sampleDoc) = ⟨[], Res.ret sampleDocStripped⟩ := by
  refine ⟨?_, rfl, rfl⟩
  intro cfg resource metadata hdry hok hm
  have hx := (checkArgs_ok_targets cfg hdry hok).1
  have ht := transformStep_of_object cfg (some resource) metadata hm
  obtain ⟨hns, hother⟩ := transformMetadata_spec cfg metadata hx
  refine ⟨storeMetadata (some resource) (transformMetadata cfg metadata),
    transformMetadata cfg metadata, ht, ?_, hns, hother, ?_, ?_⟩
  · simp [storeMetadata, Obj.get?_set_self]
  · intro k hk
    simp [storeMetadata, Obj.get?_set_ne _ _ _ _ hk]
  · intro w err hg
    exact (copyResource_of_transformed cfg w (some resource) err _ hdry hg ht).1

/-- C5 at the sample document: retargeted to `ns2`, the changed `metadata`
carries `ns2` and keeps `name`. -/
theorem transformStep_retargets_or_strips_witness :
    retargetConfig.Dryrun = false ∧ (checkArgs retargetConfig).1 = CheckState.OK ∧
    mapIndex (some sampleDoc) "metadata"
      = JSON.object [("namespace", JSON.string "ns1"), ("name", JSON.string "x")] ∧
    ∃ doc md : Obj,
      transformStep retargetConfig (some sampleDoc) = ⟨[], Res.ret doc⟩ ∧
      Obj.get? doc "metadata" = some (JSON.object md) ∧
      (if retargetConfig.Strip then Obj.get? md "namespace" = none
        else Obj.get? md "namespace" = some (JSON.string retargetConfig.NewNamespace)) ∧
      (∀ k : String, k ≠ "namespace" → Obj.get? md k
        = Obj.get? [("namespace", JSON.string "ns1"), ("name", JSON.string "x")] k) ∧
      (∀ k : String, k ≠ "metadata" → Obj.get? doc k = Obj.get? sampleDoc k) ∧
      (∀ (w : World) (err : Option Error),
        (GetResource retargetConfig w).res = Res.ret (some sampleDoc, err) →
        (copyResource retargetConfig w).trace =
          (GetResource retargetConfig w).trace ++ (emitResource retargetConfig w doc).trace) :=
  ⟨rfl, rfl, rfl, transformStep_retargets_or_strips.1 retargetConfig sampleDoc _ rfl rfl rfl⟩

/-- C6: outside dry-run, when `GetResource` returns a document that has no
top-level `metadata` key or whose `metadata` is not a mapping, `copyResource`
stops with the panic of the failed type assertion, having entered neither
`OutputResource` nor `PostResource`, printed nothing and sent nothing but
the GET. -/
theorem copyResource_type_mismatch (cfg : Config) (w : World) (doc : Obj)
    (err : Option Error) (hdry : cfg.Dryrun = false)
    (hg : (GetResource cfg w).res = Res.ret (some doc, err))
    (hm : Obj.get? doc "metadata" = none ∨
      ∃ v : JSON, Obj.get? doc "metadata" = some v ∧ v.isObject = false) :
    (copyResource cfg w).res
        = Res.panic (Panic.typeAssertion (mapIndex (some doc) "metadata").dynType) ∧
      (mapIndex (some doc) "metadata").dynType ≠ GoType.map ∧
      Event.call Fn.OutputResource ∉ (copyResource cfg w).trace ∧
      Event.call Fn.PostResource ∉ (copyResource cfg w).trace ∧
      (∀ s : String, Event.stdout s ∉ (copyResource cfg w).trace) ∧
      (∀ req : Request, Event.http req ∈ (copyResource cfg w).trace → req.Method = "GET") := by
  have hobj : (mapIndex (some doc) "metadata").isObject = false := by
    rcases hm with h | ⟨v, h, hv⟩
    · simp [mapIndex, h, JSON.isObject]
    · simp [mapIndex, h, hv]
  have ht := transformStep_of_not_object cfg (some doc) hobj
  rw [copyResource_of_panic cfg w (some doc) err _ hdry hg ht]
  have hall := GetResource_ofGet cfg w
  refine ⟨rfl, ?_, ?_, ?_, ?_, ?_⟩
  · intro h
    cases hv : mapIndex (some doc) "metadata" <;> simp_all [JSON.isObject, JSON.dynType]
  · intro h
    simpa [Event.ofGet] using hall _ h
  · intro h
    simpa [Event.ofGet] using hall _ h
  · intro s h
    simpa [Event.ofGet] using hall _ h
  · intro req h
    simpa [Event.ofGet] using hall _ h

/-- C6 at a fetched document `{"spec":{}}`, which has no `metadata` key. -/
theorem copyResource_type_mismatch_witness :
    retargetConfig.Dryrun = false ∧
    (GetResource retargetConfig noMetadataWorld).res
      = Res.ret (some docWithoutMetadata, none) ∧
    Obj.get? docWithoutMetadata "metadata" = none ∧
    ((copyResource retargetConfig noMetadataWorld).res
        = Res.panic
            (Panic.typeAssertion (mapIndex (some docWithoutMetadata) "metadata").dynType) ∧
      (mapIndex (some docWithoutMetadata) "metadata").dynType ≠ GoType.map ∧
      Event.call Fn.OutputResource ∉ (copyResource retargetConfig noMetadataWorld).trace ∧
      Event.call Fn.PostResource ∉ (copyResource retargetConfig noMetadataWorld).trace ∧
      (∀ s : String, Event.stdout s ∉ (copyResource retargetConfig noMetadataWorld).trace) ∧
      (∀ req : Request, Event.http req ∈ (copyResource retargetConfig noMetadataWorld).trace →
        req.Method = "GET")) :=
  ⟨rfl, rfl, rfl,
    copyResource_type_mismatch retargetConfig noMetadataWorld docWithoutMetadata none rfl rfl
      (Or.inl rfl)⟩

/-- C7 as stated fails: a POST answered with status 200 makes `PostResource`
return a nil error, a success outcome, although 200 is not 201. -/
theorem PostResource_success_counterexample :
    PostAnswered retargetConfig (postWorld 200) sampleDocRetargeted 200 ∧
      (PostResource retargetConfig (postWorld 200) sampleDocRetargeted).res = Res.ret none ∧
      (200 : Int) ≠ 201 :=
  ⟨⟨"<json>", ⟨rfl, rfl, rfl, fun h => absurd rfl h⟩, Except.ok "", rfl⟩, rfl, by decide⟩

/-- C7 amended: when the POST is answered without a transport error,
`PostResource` returns a nil error exactly when the status code is below
300, and exits through `log.Fatalf` for every status of 300 or more; 201 is
the only status for which the confirmation is logged. -/
theorem PostResource_success_iff_below_300 (cfg : Config) (w : World) (resource : Obj)
    (code : Int) (h : PostAnswered cfg w resource code) :
    ((PostResource cfg w resource).res = Res.ret none ↔ code < 300) ∧
      (300 ≤ code → (PostResource cfg w resource).res = Res.fatal) ∧
      (Event.log (copiedMessage cfg) ∈ (PostResource cfg w resource).trace ↔ code = 201) := by
  obtain ⟨body, hs, b, hd⟩ := h
  rw [PostResource_of_answered cfg w resource body code b hs hd]
  have e1 := copiedMessage_ne_error cfg
    (fmtInt code ++ (" " ++ (w.StatusText code ++
      (" (" ++ (w.URLString (postURL cfg) ++ ")\n")))))
  have e2 := copiedMessage_ne_error cfg
    (fmtInt code ++ (" " ++ (w.StatusText code ++
      (" Resource already exists in namespace \"" ++ (cfg.NewNamespace ++ "\"\n")))))
  have e3 := copiedMessage_ne_error cfg (fmtInt code ++ (" " ++ w.StatusText code))
  simp only [← String.append_assoc] at e1 e2 e3
  by_cases h404 : code = 404
  · subst h404
    simp [postPrelude, e1]
  by_cases h409 : code = 409
  · subst h409
    simp [postPrelude, conflictMessage, e2]
  by_cases h300 : code ≥ 300
  · have hlt : ¬ code < 300 := by omega
    have h201 : code ≠ 201 := by omega
    simp [postPrelude, genericStatusMessage, h404, h409, h300, hlt, h201, e3]
  have hlt : code < 300 := by omega
  have hge : ¬ 300 ≤ code := by omega
  by_cases h201 : code = 201
  · subst h201
    simp [postPrelude]
  · simp [postPrelude, h404, h409, hlt, hge, h201]

/-- C7 amended, at a POST answered with status 200. -/
theorem PostResource_success_iff_below_300_witness :
    PostAnswered retargetConfig (postWorld 200) sampleDocRetargeted 200 ∧
    (((PostResource retargetConfig (postWorld 200) sampleDocRetargeted).res = Res.ret none ↔
        (200 : Int) < 300) ∧
      ((300 : Int) ≤ 200 →
        (PostResource retargetConfig (postWorld 200) sampleDocRetargeted).res = Res.fatal) ∧
      (Event.log (copiedMessage retargetConfig) ∈
          (PostResource retargetConfig (postWorld 200) sampleDocRetargeted).trace ↔
        (200 : Int) = 201)) :=
  ⟨⟨"<json>", ⟨rfl, rfl, rfl, fun h => absurd rfl h⟩, Except.ok "", rfl⟩,
    PostResource_success_iff_below_300 retargetConfig (postWorld 200) sampleDocRetargeted 200
      ⟨"<json>", ⟨rfl, rfl, rfl, fun h => absurd rfl h⟩, Except.ok "", rfl⟩⟩

/-- C8: when the POST is answered with status 409, `PostResource` prints the
status line, logs the message that the resource already exists in the
destination namespace `NewNamespace`, and exits through `log.Fatalf`; it does
not return, and it logs neither the generic message for statuses of 300 or
more nor the confirmation of a copy. -/
theorem PostResource_conflict (cfg : Config) (w : World) (resource : Obj)
    (h : PostAnswered cfg w resource 409) :
    (PostResource cfg w resource).res = Res.fatal ∧
      (∃ body : String, (PostResource cfg w resource).trace =
        postPrelude cfg body 409 ++ [Event.log (conflictMessage cfg w 409)]) ∧
      conflictMessage cfg w 409 =
        "ERROR: 409 " ++ w.StatusText 409 ++ " Resource already exists in namespace \""
          ++ cfg.NewNamespace ++ "\"\n" ∧
      Event.log (genericStatusMessage w 409) ∉ (PostResource cfg w resource).trace ∧
      Event.log (copiedMessage cfg) ∉ (PostResource cfg w resource).trace ∧
      (PostResource cfg w resource).res ≠ Res.ret none := by
  obtain ⟨body, hs, b, hd⟩ := h
  rw [PostResource_of_answered cfg w resource body 409 b hs hd]
  have e2 := copiedMessage_ne_error cfg
    (fmtInt 409 ++ (" " ++ (w.StatusText 409 ++
      (" Resource already exists in namespace \"" ++ (cfg.NewNamespace ++ "\"\n")))))
  simp only [← String.append_assoc] at e2
  have e3 := conflictMessage_ne_generic cfg w 409
  refine ⟨by simp, ⟨body, by simp⟩, ?_, ?_, ?_, by simp⟩
  · simp only [conflictMessage, String.append_assoc]
    rfl
  · simp [postPrelude, Ne.symm e3]
  · simp [postPrelude, conflictMessage, e2]

/-- C8 at a POST of the retargeted sample document answered with 409. -/
theorem PostResource_conflict_witness :
    PostAnswered retargetConfig (postWorld 409) sampleDocRetargeted 409 ∧
    ((PostResource retargetConfig (postWorld 409) sampleDocRetargeted).res = Res.fatal ∧
      (∃ body : String, (PostResource retargetConfig (postWorld 409) sampleDocRetargeted).trace =
        postPrelude retargetConfig body 409 ++
          [Event.log (conflictMessage retargetConfig (postWorld 409) 409)]) ∧
      conflictMessage retargetConfig (postWorld 409) 409 =
        "ERROR: 409 " ++ (postWorld 409).StatusText 409
          ++ " Resource already exists in namespace \""
          ++ retargetConfig.NewNamespace ++ "\"\n" ∧
      Event.log (genericStatusMessage (postWorld 409) 409) ∉
        (PostResource retargetConfig (postWorld 409) sampleDocRetargeted).trace ∧
      Event.log (copiedMessage retargetConfig) ∉
        (PostResource retargetConfig (postWorld 409) sampleDocRetargeted).trace ∧
      (PostResource retargetConfig (postWorld 409) sampleDocRetargeted).res ≠ Res.ret none) :=
  ⟨⟨"<json>", ⟨rfl, rfl, rfl, fun h => absurd rfl h⟩, Except.ok "", rfl⟩,
    PostResource_conflict retargetConfig (postWorld 409) sampleDocRetargeted
      ⟨"<json>", ⟨rfl, rfl, rfl, fun h => absurd rfl h⟩, Except.ok "", rfl⟩⟩

/-- C9, the code at a failing input: the GET succeeds with the body `[1]`,
`GetResource` returns a nil map and the decoding error, and `copyResource`,
which never inspects that error, ends in the panic of the type assertion on
a nil value instead of returning Critical with the decoding error. -/
theorem copyResource_parse_failure_panics :
    retargetConfig.Dryrun = false ∧
      (checkArgs retargetConfig).1 = CheckState.OK ∧
      (GetResource retargetConfig parseFailureWorld).res = Res.ret (none,
        some ⟨"json: cannot unmarshal array into Go value of type map[string]interface \x7b\x7d"⟩) ∧
      (copyResource retargetConfig parseFailureWorld).res
        = Res.panic (Panic.typeAssertion GoType.nil) ∧
      (copyResource retargetConfig parseFailureWorld).res ≠ Res.ret (CheckState.Critical,
        some ⟨"json: cannot unmarshal array into Go value of type map[string]interface \x7b\x7d"⟩) := by
  refine ⟨rfl, rfl, rfl, rfl, ?_⟩
  have h : (copyResource retargetConfig parseFailureWorld).res
      = Res.panic (Panic.typeAssertion GoType.nil) := rfl
  rw [h]
  simp

/-- C10 as stated fails: the destination namespace `a/b` passes validation
with output off; the document handed to the emitter carries
`metadata.namespace` equal to `a/b`, while the POST is sent to the URL string
ending in `/namespaces/a/b/checks`, whose namespace segment is `a`.  With the
destination namespace `/`, which passes validation too, the namespace segment
is empty. -/
theorem post_namespace_segment_counterexample :
    slashConfig.Dryrun = false ∧ (checkArgs slashConfig).1 = CheckState.OK ∧
      slashConfig.Output = false ∧
      mapIndex (some sampleDoc) "metadata"
        = JSON.object [("namespace", JSON.string "ns1"), ("name", JSON.string "x")] ∧
      transformStep slashConfig (some sampleDoc) = ⟨[], Res.ret
        [("metadata", JSON.object [("namespace", JSON.string "a/b"), ("name", JSON.string "x")]),
         ("spec", JSON.object [])]⟩ ∧
      postURL slashConfig = "https://sensu.example:8080/api/core/v2/namespaces/a/b/checks" ∧
      Event.http (postRequest slashConfig "<json>")
        ∈ (copyResource slashConfig (postWorld 201)).trace ∧
      namespaceSegment slashConfig = some "a" ∧
      namespaceSegment slashConfig ≠ some "a/b" ∧
      (checkArgs loneSlashConfig).1 = CheckState.OK ∧ loneSlashConfig.Output = false ∧
      namespaceSegment loneSlashConfig = some "" :=
  ⟨rfl, rfl, rfl, rfl, rfl, by decide, by decide, by decide, by decide, rfl, rfl, by decide⟩

/-- C10 amended: for a configuration that passed validation outside dry-run
with output off and a fetched document whose `metadata` is a mapping, strip is
off and the destination namespace is non-empty; the document handed to the
emitter has `metadata.namespace` equal to it; `PostResource` formats it,
unescaped, into the URL string between `/api/core/v2/namespaces/` and `/`;
whenever the request can be sent, `copyResource` sends the POST built from
that URL string with the encoding of that document as body; and when the API
URL holds no `?` or `#` and the destination namespace no `/`, `?` or `#`, the
namespace segment of the URL string is the destination namespace. -/
theorem post_namespace_text_matches_document (cfg : Config) (resource metadata : Obj)
    (hdry : cfg.Dryrun = false) (hok : (checkArgs cfg).1 = CheckState.OK)
    (hout : cfg.Output = false)
    (hm : mapIndex (some resource) "metadata" = JSON.object metadata) :
    cfg.Strip = false ∧ cfg.NewNamespace.length > 0 ∧
      postURL cfg = cfg.SensuApiUrl ++ "/api/core/v2/namespaces/" ++ cfg.NewNamespace ++ "/"
        ++ cfg.ResourceType ∧
      (cfg.SensuApiUrl.data.any endsPath = false →
        cfg.NewNamespace.data.any endsSegment = false →
        namespaceSegment cfg = some cfg.NewNamespace) ∧
      ∃ doc md : Obj,
        transformStep cfg (some resource) = ⟨[], Res.ret doc⟩ ∧
        Obj.get? doc "metadata" = some (JSON.object md) ∧
        Obj.get? md "namespace" = some (JSON.string cfg.NewNamespace) ∧
        ∀ (w : World) (err : Option Error) (body : String),
          (GetResource cfg w).res = Res.ret (some resource, err) →
          w.Marshal doc = Except.ok body →
          w.NewRequest "POST" (postURL cfg) = none →
          CertsLoad cfg w →
          Event.http
            { Method := "POST"
              url := postURL cfg
              Header := requestHeader cfg
              Body := some body } ∈ (copyResource cfg w).trace := by
  obtain ⟨hx, hso⟩ := checkArgs_ok_targets cfg hdry hok
  have hstrip : cfg.Strip = false := by
    cases hs : cfg.Strip with
    | false => rfl
    | true => simp [hso hs] at hout
  have hlen : cfg.NewNamespace.length > 0 := by
    rcases hx with ⟨h, _⟩ | ⟨h, _⟩
    · exact h
    · simp [hstrip] at h
  have ht := transformStep_of_object cfg (some resource) metadata hm
  refine ⟨hstrip, hlen, rfl, namespaceSegment_of_plain cfg,
    storeMetadata (some resource) (transformMetadata cfg metadata),
    transformMetadata cfg metadata, ht, ?_, ?_, ?_⟩
  · simp [storeMetadata, Obj.get?_set_self]
  · simpa [hstrip] using (transformMetadata_spec cfg metadata hx).1
  · intro w err body hg hmar hreq hcert
    rw [(copyResource_of_transformed cfg w (some resource) err _ hdry hg ht).1]
    have hsent := PostResource_sends cfg w _ body ⟨hmar, hreq, hcert⟩
    simp only [emitResource, hout, List.mem_append]
    right
    simpa [postRequest] using hsent

/-- C10 amended, at the sample document retargeted to `ns2` in a world that
answers the POST with 201: the namespace segment is `ns2` and the POST is
sent. -/
theorem post_namespace_text_matches_document_witness :
    retargetConfig.Dryrun = false ∧ (checkArgs retargetConfig).1 = CheckState.OK ∧
    retargetConfig.Output = false ∧
    mapIndex (some sampleDoc) "metadata"
      = JSON.object [("namespace", JSON.string "ns1"), ("name", JSON.string "x")] ∧
    retargetConfig.SensuApiUrl.data.any endsPath = false ∧
    retargetConfig.NewNamespace.data.any endsSegment = false ∧
    (GetResource retargetConfig (postWorld 201)).res = Res.ret (some sampleDoc, none) ∧
    retargetConfig.Strip = false ∧ retargetConfig.NewNamespace.length > 0 ∧
    namespaceSegment retargetConfig = some "ns2" ∧
    transformStep retargetConfig (some sampleDoc) = ⟨[], Res.ret sampleDocRetargeted⟩ ∧
    Event.http
      { Method := "POST"
        url := "https://sensu.example:8080/api/core/v2/namespaces/ns2/checks"
        Header := requestHeader retargetConfig
        Body := some "<json>" } ∈ (copyResource retargetConfig (postWorld 201)).trace := by
  have h := post_namespace_text_matches_document retargetConfig sampleDoc _ rfl rfl rfl
    (rfl : mapIndex (some sampleDoc) "metadata"
      = JSON.object [("namespace", JSON.string "ns1"), ("name", JSON.string "x")])
  obtain ⟨hstrip, hlen, _, hseg, doc, md, _, _, _, hsend⟩ := h
  refine ⟨rfl, rfl, rfl, rfl, by decide, by decide, rfl, hstrip, hlen,
    hseg (by decide) (by decide), rfl, ?_⟩
  exact hsend (postWorld 201) none "<json>" rfl rfl rfl ⟨rfl, fun h => absurd rfl h⟩

end NamespaceCopy
